import Mathlib

/-!
The goreleaser configuration model and loader (`config/config.go`).

A shallow embedding of package `config`: the record types of the configuration
file, `Repo.String`, and the two loaders `Load` and `LoadReader`.

Go's struct types become Lean structures whose field defaults are the Go zero
values, so `{}` is the zero value of each type. A Go `error` is an
`Option Error` (`none` is `nil`). The loaders are written in explicit
state-passing style over a `World` that holds the files that can be opened, the
handles that are open, and the list of library calls made so far.
-/

namespace Config

/-! ## Data model (config.go, lines 13-134) -/

/-- Repo represents any kind of repo (github, gitlab, etc). -/
structure Repo where
  Owner : String := ""
  Name : String := ""
  deriving DecidableEq

/-- String of the repo, e.g. owner/name (config.go, lines 20-22). -/
def Repo.String (r : Repo) : String :=
  r.Owner ++ "/" ++ r.Name

/-- Homebrew contains the brew section. -/
structure Homebrew where
  GitHub : Repo := {}
  Folder : String := ""
  Caveats : String := ""
  Head : String := ""
  Plist : String := ""
  Install : String := ""
  Dependencies : List String := []
  BuildDependencies : List String := []
  Conflicts : List String := []
  Description : String := ""
  Homepage : String := ""
  Test : String := ""
  Special : String := ""
  deriving DecidableEq

/-- Hooks define actions to run before and/or after something. -/
structure Hooks where
  Pre : String := ""
  Post : String := ""
  deriving DecidableEq

/-- IgnoredBuild represents a build ignored by the user. -/
structure IgnoredBuild where
  Goos : String := ""
  Goarch : String := ""
  Goarm : String := ""
  deriving DecidableEq

/-- Build contains the build configuration section. -/
structure Build where
  Goos : List String := []
  Goarch : List String := []
  Goarm : List String := []
  Ignore : List IgnoredBuild := []
  Main : String := ""
  Ldflags : String := ""
  Flags : String := ""
  Binary : String := ""
  Hooks : Hooks := {}
  Env : List String := []
  deriving DecidableEq

/-- FormatOverride is used to specify a custom format for a specific GOOS. -/
structure FormatOverride where
  Goos : String := ""
  Format : String := ""
  deriving DecidableEq

/-- Archive config used for the archive. The Go map `Replacements` is an
association list with at most one entry per key; the nil map is `[]`. -/
structure Archive where
  Format : String := ""
  FormatOverrides : List FormatOverride := []
  NameTemplate : String := ""
  Replacements : List (String × String) := []
  Files : List String := []
  deriving DecidableEq

/-- Source config used for the source archives. -/
structure Source where
  Format : String := ""
  NameTemplate : String := ""
  Excludes : List String := []
  deriving DecidableEq

/-- Release config used for the GitHub release. -/
structure Release where
  GitHub : Repo := {}
  Draft : Bool := false
  deriving DecidableEq

/-- FPM config. -/
structure FPM where
  Formats : List String := []
  Dependencies : List String := []
  Conflicts : List String := []
  Vendor : String := ""
  Homepage : String := ""
  Maintainer : String := ""
  Description : String := ""
  License : String := ""
  deriving DecidableEq

/-- Snapshot config. -/
structure Snapshot where
  NameTemplate : String := ""
  deriving DecidableEq

/-- Checksum config. -/
structure Checksum where
  NameTemplate : String := ""
  deriving DecidableEq

/-- Cleanup config. -/
structure Cleanup where
  Hooks : List String := []
  deriving DecidableEq

/-- Project includes all project configuration. `Dist` is the test only
property indicating the path to the dist folder, tagged `yaml:"-"`. -/
structure Project where
  Release : Release := {}
  Brew : Homebrew := {}
  Build : Build := {}
  Archive : Archive := {}
  Source : Source := {}
  FPM : FPM := {}
  Snapshot : Snapshot := {}
  Hooks : Hooks := {}
  Checksum : Checksum := {}
  Cleanup : Cleanup := {}
  Dist : String := ""
  deriving DecidableEq

/-- The zero-valued Project: what the named result `config` holds before
anything is assigned to it. -/
def Project.zero : Project := {}

/-! ## The world the loaders run in

`os.Open`, `ioutil.ReadAll` and `yaml.Unmarshal` are library calls. The first
two are described by their results; the decoder is an argument of the loaders.
Every call is appended to `World.calls`, so that "this step was not reached"
is a statement about that list. -/

/-- A Go error value, identified by its message. -/
abbrev Error := String

/-- An `io.Reader`, described by what reading it to the end yields: the bytes
delivered, and the error other than end-of-stream that stopped the read. -/
structure Reader where
  data : List UInt8
  err : Option Error

/-- The result of `ioutil.ReadAll(fd)`: the bytes read and the read error. -/
def ReadAll (fd : Reader) : List UInt8 × Option Error :=
  (fd.data, fd.err)

/-- An `*os.File` returned by a successful `os.Open`: its handle and the
stream it reads. -/
structure File where
  handle : Nat
  reader : Reader

/-- The library calls the loaders make. -/
inductive Call where
  | osOpen (file : String)
  | readAll
  | unmarshal (data : List UInt8)
  deriving DecidableEq

/-- The state around a call of a loader: what opening each path gives, the
handles currently open, and the calls made so far (oldest first). -/
structure World where
  files : String → Except Error Reader
  handles : List Nat
  calls : List Call

/-- Append a call to the record of calls. -/
def World.log (w : World) (c : Call) : World :=
  { w with calls := w.calls ++ [c] }

/-- A handle that is not open: one more than the largest open one. -/
def freshHandle (handles : List Nat) : Nat :=
  handles.foldr max 0 + 1

/-- The call `os.Open(file)`: an error, or a file whose new handle joins the
open handles. A handle leaves `World.handles` only through a close, and the
package calls none. -/
def osOpen (file : String) (w : World) : Except Error File × World :=
  let w1 := w.log (Call.osOpen file)
  match w.files file with
  | .error e => (.error e, w1)
  | .ok r =>
    let h := freshHandle w.handles
    (.ok { handle := h, reader := r }, { w1 with handles := h :: w1.handles })

/-- The type of `yaml.Unmarshal(data, &config)`: from the bytes and the value
`config` holds, the value it holds afterwards and the error returned. -/
abbrev Decoder := List UInt8 → Project → Project × Option Error

/-! ## The loaders (config.go, lines 136-153) -/

/-- LoadReader config via io.Reader (config.go, lines 146-153). -/
def LoadReader (Unmarshal : Decoder) (fd : Reader) (w : World) :
    (Project × Option Error) × World :=
  let config := Project.zero
  let w1 := w.log Call.readAll
  match ReadAll fd with
  | (_, some err) => ((config, some err), w1)
  | (data, none) => (Unmarshal data config, w1.log (Call.unmarshal data))

/-- Load config file (config.go, lines 137-143). -/
def Load (Unmarshal : Decoder) (file : String) (w : World) :
    (Project × Option Error) × World :=
  let config := Project.zero
  match osOpen file w with
  | (.error err, w1) => ((config, some err), w1)
  | (.ok f, w1) => LoadReader Unmarshal f.reader w1

/-! ## The decode step

The package imports `gopkg.in/yaml.v1`; the library is not part of the
sources. What the struct tags of the data model mean to it is modelled here
from the specification, over the tree of a parsed document. The text-to-tree
step (YAML syntax) stays an argument. -/

/-- A parsed YAML document. A scalar that is neither null nor a boolean is
carried as its text. -/
inductive Node where
  | null
  | bool (b : Bool)
  | str (s : String)
  | seq (items : List Node)
  | map (entries : List (Node × Node))

/-- What the decoder does with a node whose kind does not fit the field it
targets. `strict` reports an error and stops: the reading of sections 4.2 and 7
of the specification. `lenient` leaves the field as it is and goes on without
an error: the reading of the documentation of `gopkg.in/yaml.v1`, by which
skipping a value that is not compatible with the out value is not an error. -/
inductive TypePolicy where
  | strict
  | lenient

/-- How a document key is compared with the declared key of a field: `exact`
when they are the same string ("a YAML key equal to its declared name"),
`folded` when they agree up to letter case and underscores ("case-insensitive,
underscore-tolerant key matching"); section 4.2 of the specification says
both. -/
inductive KeyPolicy where
  | exact
  | folded

/-- The two open choices of the decode step. -/
structure Opts where
  types : TypePolicy
  keys : KeyPolicy

/-- The error a node of the wrong kind raises under `TypePolicy.strict`. -/
def typeError : Error := "yaml: value does not fit the field"

/-- A key with its underscores dropped and its letters in lower case. -/
def foldKey (k : String) : String :=
  String.mk ((k.data.filter (fun c => c ≠ '_')).map Char.toLower)

/-- Modelled from the spec: whether document key `k` selects the field
declared under `declared` (the key matching of `yaml.Unmarshal`, which is not
in the sources). -/
def keyMatches (o : Opts) (k declared : String) : Bool :=
  match o.keys with
  | .exact => k = declared
  | .folded => foldKey k = foldKey declared

/-- Modelled from the spec: the outcome of `yaml.Unmarshal` (not in the
sources) for a node that does not fit its field: an error, or nothing decoded. -/
def skipOrFail {T : Type} (o : Opts) : Except Error (Option T) :=
  match o.types with
  | .strict => .error typeError
  | .lenient => .ok none

/-- A node read as a Go `string`. A null gives the zero value. -/
def stringElem (o : Opts) : Node → Except Error (Option String)
  | .str s => .ok (some s)
  | .null => .ok (some "")
  | _ => skipOrFail o

/-- A node read as a Go `bool`. A null gives the zero value. -/
def boolElem (o : Opts) : Node → Except Error (Option Bool)
  | .bool b => .ok (some b)
  | .null => .ok (some false)
  | _ => skipOrFail o

/-- The items of a sequence, each read by `elem`; skipped items are left out
and the first error stops the decode. -/
def decodeItems {T : Type} (elem : Opts → Node → Except Error (Option T)) (o : Opts) :
    List Node → Except Error (List T)
  | [] => .ok []
  | n :: rest =>
    match elem o n with
    | .error e => .error e
    | .ok none => decodeItems elem o rest
    | .ok (some t) =>
      match decodeItems elem o rest with
      | .error e => .error e
      | .ok ts => .ok (t :: ts)

/-- A node read as a Go slice: only a sequence (or a null) fits. -/
def seqElem {T : Type} (elem : Opts → Node → Except Error (Option T)) (o : Opts) :
    Node → Except Error (Option (List T))
  | .seq items =>
    match decodeItems elem o items with
    | .error e => .error e
    | .ok ts => .ok (some ts)
  | .null => .ok (some [])
  | _ => skipOrFail o

/-- Assignment `m[k] = v` on a map kept as an association list. -/
def mapInsert (k v : String) : List (String × String) → List (String × String)
  | [] => [(k, v)]
  | (k1, v1) :: rest =>
    if k1 = k then (k, v) :: rest else (k1, v1) :: mapInsert k v rest

/-- The entries of a mapping read into a `map[string]string`. -/
def decodePairs (o : Opts) :
    List (Node × Node) → List (String × String) → Except Error (List (String × String))
  | [], m => .ok m
  | (k, v) :: rest, m =>
    match stringElem o k with
    | .error e => .error e
    | .ok none => decodePairs o rest m
    | .ok (some ks) =>
      match stringElem o v with
      | .error e => .error e
      | .ok none => decodePairs o rest m
      | .ok (some vs) => decodePairs o rest (mapInsert ks vs m)

/-- A node read as a Go `map[string]string`: only a mapping (or a null) fits. -/
def mapElem (o : Opts) : Node → Except Error (Option (List (String × String)))
  | .map es =>
    match decodePairs o es [] with
    | .error e => .error e
    | .ok m => .ok (some m)
  | .null => .ok (some [])
  | _ => skipOrFail o

/-- One row of a struct's field-to-key table: the declared key and how a node
found under it is stored into the struct. -/
structure Field (S : Type) where
  key : String
  bind : Opts → Node → S → S × Option Error

/-- The field a document key selects: the first row of the table it matches. -/
def lookupField {S : Type} (o : Opts) (k : String) (fields : List (Field S)) :
    Option (Field S) :=
  fields.find? (fun f => keyMatches o k f.key)

/-- Modelled from the spec: how `yaml.Unmarshal` fills a struct from a mapping
(the library is not in the sources). The entries are stored in document order.
A key that is not a string or selects no field is ignored; the first error
stops the decode, with what was stored so far. -/
def decodeEntries {S : Type} (o : Opts) (fields : List (Field S)) :
    List (Node × Node) → S → S × Option Error
  | [], s => (s, none)
  | (.str k, v) :: rest, s =>
    match lookupField o k fields with
    | none => decodeEntries o fields rest s
    | some f =>
      match f.bind o v s with
      | (s1, some e) => (s1, some e)
      | (s1, none) => decodeEntries o fields rest s1
  | (_, _) :: rest, s => decodeEntries o fields rest s

/-- Modelled from the spec: how `yaml.Unmarshal` stores a node into a struct
that holds `s` (the library is not in the sources). A mapping fills fields, a
null resets to the zero value, anything else does not fit. -/
def decodeStruct {S : Type} (fields : List (Field S)) (zero : S) (o : Opts) (n : Node)
    (s : S) : S × Option Error :=
  match n with
  | .map es => decodeEntries o fields es s
  | .null => (zero, none)
  | _ =>
    match o.types with
    | .strict => (s, some typeError)
    | .lenient => (s, none)

/-- A field of string, bool, slice or map type. -/
def valueField {S T : Type} (elem : Opts → Node → Except Error (Option T))
    (set : S → T → S) : Opts → Node → S → S × Option Error :=
  fun o n s =>
    match elem o n with
    | .error e => (s, some e)
    | .ok none => (s, none)
    | .ok (some t) => (set s t, none)

/-- A field of struct type, decoded in place. -/
def structField {S T : Type} (fields : List (Field T)) (zero : T) (get : S → T)
    (set : S → T → S) : Opts → Node → S → S × Option Error :=
  fun o n s =>
    let r := decodeStruct fields zero o n (get s)
    (set s r.1, r.2)

/-- An item of a slice of structs, decoded from the zero value. -/
def structElem {T : Type} (fields : List (Field T)) (zero : T) (o : Opts) (n : Node) :
    Except Error (Option T) :=
  match n with
  | .map es =>
    match decodeEntries o fields es zero with
    | (_, some e) => .error e
    | (t, none) => .ok (some t)
  | .null => .ok (some zero)
  | _ => skipOrFail o

/-! ## The field-to-key tables

One table per struct of the data model, read off its declaration: a field
tagged `yaml:"key,omitempty"` is declared under `key`, a field whose tag names
no key under its lower-cased name, and the field tagged `yaml:"-"` has no row. -/

/-- The fields of `Repo` (config.go, lines 14-17). -/
def repoFields : List (Field Repo) :=
  [ { key := "owner", bind := valueField stringElem (fun r v => { r with Owner := v }) },
    { key := "name", bind := valueField stringElem (fun r v => { r with Name := v }) } ]

/-- The fields of `Homebrew` (config.go, lines 25-39). -/
def homebrewFields : List (Field Homebrew) :=
  [ { key := "github",
      bind := structField repoFields {} (fun b => b.GitHub) (fun b v => { b with GitHub := v }) },
    { key := "folder", bind := valueField stringElem (fun b v => { b with Folder := v }) },
    { key := "caveats", bind := valueField stringElem (fun b v => { b with Caveats := v }) },
    { key := "head", bind := valueField stringElem (fun b v => { b with Head := v }) },
    { key := "plist", bind := valueField stringElem (fun b v => { b with Plist := v }) },
    { key := "install", bind := valueField stringElem (fun b v => { b with Install := v }) },
    { key := "dependencies",
      bind := valueField (seqElem stringElem) (fun b v => { b with Dependencies := v }) },
    { key := "build_dependencies",
      bind := valueField (seqElem stringElem) (fun b v => { b with BuildDependencies := v }) },
    { key := "conflicts",
      bind := valueField (seqElem stringElem) (fun b v => { b with Conflicts := v }) },
    { key := "description",
      bind := valueField stringElem (fun b v => { b with Description := v }) },
    { key := "homepage", bind := valueField stringElem (fun b v => { b with Homepage := v }) },
    { key := "test", bind := valueField stringElem (fun b v => { b with Test := v }) },
    { key := "special", bind := valueField stringElem (fun b v => { b with Special := v }) } ]

/-- The fields of `Hooks` (config.go, lines 42-45). -/
def hooksFields : List (Field Hooks) :=
  [ { key := "pre", bind := valueField stringElem (fun h v => { h with Pre := v }) },
    { key := "post", bind := valueField stringElem (fun h v => { h with Post := v }) } ]

/-- The fields of `IgnoredBuild` (config.go, lines 48-50), which carry no tag. -/
def ignoredBuildFields : List (Field IgnoredBuild) :=
  [ { key := "goos", bind := valueField stringElem (fun i v => { i with Goos := v }) },
    { key := "goarch", bind := valueField stringElem (fun i v => { i with Goarch := v }) },
    { key := "goarm", bind := valueField stringElem (fun i v => { i with Goarm := v }) } ]

/-- The fields of `Build` (config.go, lines 53-64). -/
def buildFields : List (Field Build) :=
  [ { key := "goos", bind := valueField (seqElem stringElem) (fun b v => { b with Goos := v }) },
    { key := "goarch",
      bind := valueField (seqElem stringElem) (fun b v => { b with Goarch := v }) },
    { key := "goarm", bind := valueField (seqElem stringElem) (fun b v => { b with Goarm := v }) },
    { key := "ignore",
      bind := valueField (seqElem (structElem ignoredBuildFields {}))
        (fun b v => { b with Ignore := v }) },
    { key := "main", bind := valueField stringElem (fun b v => { b with Main := v }) },
    { key := "ldflags", bind := valueField stringElem (fun b v => { b with Ldflags := v }) },
    { key := "flags", bind := valueField stringElem (fun b v => { b with Flags := v }) },
    { key := "binary", bind := valueField stringElem (fun b v => { b with Binary := v }) },
    { key := "hooks",
      bind := structField hooksFields {} (fun b => b.Hooks) (fun b v => { b with Hooks := v }) },
    { key := "env", bind := valueField (seqElem stringElem) (fun b v => { b with Env := v }) } ]

/-- The fields of `FormatOverride` (config.go, lines 67-70). -/
def formatOverrideFields : List (Field FormatOverride) :=
  [ { key := "goos", bind := valueField stringElem (fun f v => { f with Goos := v }) },
    { key := "format", bind := valueField stringElem (fun f v => { f with Format := v }) } ]

/-- The fields of `Archive` (config.go, lines 73-79). -/
def archiveFields : List (Field Archive) :=
  [ { key := "format", bind := valueField stringElem (fun a v => { a with Format := v }) },
    { key := "format_overrides",
      bind := valueField (seqElem (structElem formatOverrideFields {}))
        (fun a v => { a with FormatOverrides := v }) },
    { key := "name_template",
      bind := valueField stringElem (fun a v => { a with NameTemplate := v }) },
    { key := "replacements",
      bind := valueField mapElem (fun a v => { a with Replacements := v }) },
    { key := "files", bind := valueField (seqElem stringElem) (fun a v => { a with Files := v }) } ]

/-- The fields of `Source` (config.go, lines 82-86). -/
def sourceFields : List (Field Source) :=
  [ { key := "format", bind := valueField stringElem (fun a v => { a with Format := v }) },
    { key := "name_template",
      bind := valueField stringElem (fun a v => { a with NameTemplate := v }) },
    { key := "excludes",
      bind := valueField (seqElem stringElem) (fun a v => { a with Excludes := v }) } ]

/-- The fields of `Release` (config.go, lines 89-92). -/
def releaseFields : List (Field Release) :=
  [ { key := "github",
      bind := structField repoFields {} (fun r => r.GitHub) (fun r v => { r with GitHub := v }) },
    { key := "draft", bind := valueField boolElem (fun r v => { r with Draft := v }) } ]

/-- The fields of `FPM` (config.go, lines 95-104). -/
def fpmFields : List (Field FPM) :=
  [ { key := "formats",
      bind := valueField (seqElem stringElem) (fun f v => { f with Formats := v }) },
    { key := "dependencies",
      bind := valueField (seqElem stringElem) (fun f v => { f with Dependencies := v }) },
    { key := "conflicts",
      bind := valueField (seqElem stringElem) (fun f v => { f with Conflicts := v }) },
    { key := "vendor", bind := valueField stringElem (fun f v => { f with Vendor := v }) },
    { key := "homepage", bind := valueField stringElem (fun f v => { f with Homepage := v }) },
    { key := "maintainer",
      bind := valueField stringElem (fun f v => { f with Maintainer := v }) },
    { key := "description",
      bind := valueField stringElem (fun f v => { f with Description := v }) },
    { key := "license", bind := valueField stringElem (fun f v => { f with License := v }) } ]

/-- The field of `Snapshot` (config.go, lines 107-109). -/
def snapshotFields : List (Field Snapshot) :=
  [ { key := "name_template",
      bind := valueField stringElem (fun a v => { a with NameTemplate := v }) } ]

/-- The field of `Checksum` (config.go, lines 111-113). -/
def checksumFields : List (Field Checksum) :=
  [ { key := "name_template",
      bind := valueField stringElem (fun a v => { a with NameTemplate := v }) } ]

/-- The field of `Cleanup` (config.go, lines 115-117). -/
def cleanupFields : List (Field Cleanup) :=
  [ { key := "hooks", bind := valueField (seqElem stringElem) (fun c v => { c with Hooks := v }) } ]

/-- The fields of `Project` (config.go, lines 120-134). `Dist` is tagged
`yaml:"-"` and has no row. -/
def projectFields : List (Field Project) :=
  [ { key := "release",
      bind := structField releaseFields {} (fun p => p.Release)
        (fun p v => { p with Release := v }) },
    { key := "brew",
      bind := structField homebrewFields {} (fun p => p.Brew) (fun p v => { p with Brew := v }) },
    { key := "build",
      bind := structField buildFields {} (fun p => p.Build) (fun p v => { p with Build := v }) },
    { key := "archive",
      bind := structField archiveFields {} (fun p => p.Archive)
        (fun p v => { p with Archive := v }) },
    { key := "source",
      bind := structField sourceFields {} (fun p => p.Source) (fun p v => { p with Source := v }) },
    { key := "fpm",
      bind := structField fpmFields {} (fun p => p.FPM) (fun p v => { p with FPM := v }) },
    { key := "snapshot",
      bind := structField snapshotFields {} (fun p => p.Snapshot)
        (fun p v => { p with Snapshot := v }) },
    { key := "hooks",
      bind := structField hooksFields {} (fun p => p.Hooks) (fun p v => { p with Hooks := v }) },
    { key := "checksum",
      bind := structField checksumFields {} (fun p => p.Checksum)
        (fun p v => { p with Checksum := v }) },
    { key := "cleanup",
      bind := structField cleanupFields {} (fun p => p.Cleanup)
        (fun p v => { p with Cleanup := v }) } ]

/-- Modelled from the spec: `yaml.Unmarshal` of `gopkg.in/yaml.v1`, which the
package imports and the sources do not contain. The bytes are parsed by
`parse`; a syntax error is returned with `config` untouched; a stream that
holds no document leaves `config` untouched without error; otherwise the
document is stored into `config` through the field-to-key tables. -/
def yamlUnmarshal (parse : List UInt8 → Except Error (Option Node)) (o : Opts) : Decoder :=
  fun data config =>
    match parse data with
    | .error e => (config, some e)
    | .ok none => (config, none)
    | .ok (some n) => decodeStruct projectFields Project.zero o n config

/-- The bytes of a text, in UTF-8. -/
def bytesOf (text : String) : List UInt8 :=
  text.toUTF8.data.toList

/-- The bytes of the document
`release: {github: {owner: acme, name: tool}, draft: true}`. -/
def releaseBytes : List UInt8 :=
  bytesOf "release: \x7bgithub: \x7bowner: acme, name: tool\x7d, draft: true\x7d"

/-- The document `release: {github: {owner: acme, name: tool}, draft: true}`
as a tree. -/
def releaseDoc : Node :=
  .map [ (.str "release",
          .map [ (.str "github", .map [ (.str "owner", .str "acme"), (.str "name", .str "tool") ]),
                 (.str "draft", .bool true) ]) ]

/-! ## Concrete inputs -/

/-- A document whose top-level keys are `dist` and `Dist`. -/
def distDoc : Node :=
  .map [ (.str "dist", .str "out"), (.str "Dist", .str "out") ]

/-- The document `build: {goos: linux}` as a tree. -/
def goosScalarDoc : Node :=
  .map [ (.str "build", .map [ (.str "goos", .str "linux") ]) ]


/-- A decoder that accepts everything and stores nothing. -/
def idleDecoder : Decoder :=
  fun _ config => (config, none)

/-- A decoder that rejects everything, after storing a release owner. -/
def failingDecoder : Decoder :=
  fun _ config =>
    ({ config with Release := { config.Release with GitHub := { Owner := "acme" } } },
      some "yaml: did not find expected node content")

/-- A parser for which every stream holds exactly the document `n`. -/
def constParse (n : Node) : List UInt8 → Except Error (Option Node) :=
  fun _ => .ok (some n)

/-- A parser for which no stream holds a document. -/
def emptyParse : List UInt8 → Except Error (Option Node) :=
  fun _ => .ok none

/-- A stream of three bytes that reads to the end. -/
def goodReader : Reader :=
  { data := [97, 58, 10], err := none }

/-- A stream that delivers the release document and reads to the end. -/
def releaseReader : Reader :=
  { data := releaseBytes, err := none }

/-- A stream that breaks after one byte. -/
def brokenReader : Reader :=
  { data := [97], err := some "unexpected EOF" }

/-- A world with one readable file, one file whose read breaks, and nothing
else; no handle is open and no call was made. -/
def smallWorld : World :=
  { files := fun file =>
      if file = "goreleaser.yml" then .ok goodReader
      else if file = "broken.yml" then .ok brokenReader
      else .error "open: no such file or directory",
    handles := [],
    calls := [] }

/-! ## Theorems -/

/-- C1: for every pair of strings (owner, name), `Repo{Owner: owner, Name:
name}.String()` is exactly `owner ++ "/" ++ name`; the function is total and
validates nothing, so empty components pass through (owner `""`, name `"x"`
gives `"/x"`, and two empty components give `"/"`). -/
theorem repo_string_eq (owner name : String) :
    Repo.String { Owner := owner, Name := name } = owner ++ "/" ++ name
    ∧ Repo.String { Owner := "", Name := "x" } = "/x"
    ∧ Repo.String { Owner := "x", Name := "" } = "x/"
    ∧ Repo.String { Owner := "", Name := "" } = "/" := by
  refine ⟨rfl, ?_, ?_, ?_⟩ <;> decide

/-! ### Helper lemmas -/

theorem le_foldr_max (hs : List Nat) (h : Nat) (hmem : h ∈ hs) : h ≤ hs.foldr max 0 := by
  induction hs with
  | nil => cases hmem
  | cons a rest ih =>
    rcases List.mem_cons.mp hmem with rfl | hrest
    · exact le_max_left _ _
    · exact le_trans (ih hrest) (le_max_right _ _)

theorem freshHandle_not_mem (hs : List Nat) : freshHandle hs ∉ hs := by
  intro hmem
  have hle := le_foldr_max hs _ hmem
  unfold freshHandle at hle
  omega

theorem loadReader_handles (Unmarshal : Decoder) (fd : Reader) (w : World) :
    (LoadReader Unmarshal fd w).2.handles = w.handles := by
  unfold LoadReader ReadAll
  cases fd.err <;> rfl

theorem loadReader_of_read_ok (Unmarshal : Decoder) (fd : Reader) (w : World)
    (hread : fd.err = none) :
    LoadReader Unmarshal fd w
      = (Unmarshal fd.data Project.zero, (w.log Call.readAll).log (Call.unmarshal fd.data)) := by
  unfold LoadReader ReadAll
  rw [hread]

theorem loadReader_of_read_error (Unmarshal : Decoder) (fd : Reader) (w : World) (e : Error)
    (hread : fd.err = some e) :
    LoadReader Unmarshal fd w = ((Project.zero, some e), w.log Call.readAll) := by
  unfold LoadReader ReadAll
  rw [hread]

theorem load_of_open_ok (Unmarshal : Decoder) (file : String) (w : World) (r : Reader)
    (hopen : w.files file = .ok r) :
    Load Unmarshal file w
      = LoadReader Unmarshal r
          { (w.log (Call.osOpen file)) with handles := freshHandle w.handles :: w.handles } := by
  unfold Load osOpen
  rw [hopen]
  rfl

theorem load_of_open_error (Unmarshal : Decoder) (file : String) (w : World) (e : Error)
    (hopen : w.files file = .error e) :
    Load Unmarshal file w = ((Project.zero, some e), w.log (Call.osOpen file)) := by
  unfold Load osOpen
  rw [hopen]

/-! ### The loaders -/

/-- C2: for every path whose open fails with error `e`, `Load` returns exactly
`e` (a non-nil error) with the zero-valued Project, and the only library call
it makes is the open: neither the stream read nor the decode takes place. -/
theorem load_open_failure (Unmarshal : Decoder) (file : String) (w : World) (e : Error)
    (hopen : w.files file = .error e) :
    (Load Unmarshal file w).1 = (Project.zero, some e)
    ∧ (Load Unmarshal file w).2.calls = w.calls ++ [Call.osOpen file] := by
  rw [load_of_open_error Unmarshal file w e hopen]
  exact ⟨rfl, rfl⟩

/-- Witness of C2: opening a path that does not exist in `smallWorld`. -/
theorem load_open_failure_witness :
    smallWorld.files "missing.yml" = .error "open: no such file or directory"
    ∧ (Load failingDecoder "missing.yml" smallWorld).1
        = (Project.zero, some "open: no such file or directory")
    ∧ (Load failingDecoder "missing.yml" smallWorld).2.calls = [Call.osOpen "missing.yml"] :=
  ⟨rfl, load_open_failure failingDecoder "missing.yml" smallWorld _ rfl⟩

/-- C3: for every stream that reads to completion with bytes `b`, `LoadReader`
returns exactly what decoding `b` into a fresh zero-valued Project returns:
the Project the decoder left and the decoder's error. Hence its error is
non-nil whenever the decode fails, and over all streams its error is nil
exactly when the read and the decode both succeed. -/
theorem loadReader_returns_decode (Unmarshal : Decoder) (fd : Reader) (w : World) :
    (fd.err = none → (LoadReader Unmarshal fd w).1 = Unmarshal fd.data Project.zero)
    ∧ (fd.err = none → (Unmarshal fd.data Project.zero).2 ≠ none →
        (LoadReader Unmarshal fd w).1.2 ≠ none)
    ∧ ((LoadReader Unmarshal fd w).1.2 = none ↔
        fd.err = none ∧ (Unmarshal fd.data Project.zero).2 = none) := by
  refine ⟨?_, ?_, ?_⟩
  · intro hread
    rw [loadReader_of_read_ok Unmarshal fd w hread]
  · intro hread hdec
    rw [loadReader_of_read_ok Unmarshal fd w hread]
    exact hdec
  · cases hread : fd.err with
    | none =>
      rw [loadReader_of_read_ok Unmarshal fd w hread]
      simp
    | some e =>
      rw [loadReader_of_read_error Unmarshal fd w e hread]
      simp

/-- Witness of C3: a stream that reads to the end and a decoder that fails
after storing part of the configuration. -/
theorem loadReader_returns_decode_witness :
    goodReader.err = none
    ∧ (LoadReader failingDecoder goodReader smallWorld).1
        = failingDecoder goodReader.data Project.zero
    ∧ (LoadReader failingDecoder goodReader smallWorld).1.2 ≠ none :=
  ⟨rfl, (loadReader_returns_decode failingDecoder goodReader smallWorld).1 rfl,
    (loadReader_returns_decode failingDecoder goodReader smallWorld).2.1 rfl (by decide)⟩

/-- C4: for every stream whose full read fails with error `e`, `LoadReader`
returns exactly `e` (a non-nil error) with the zero-valued Project, and the
only library call it makes is the read: the decode does not take place. -/
theorem loadReader_read_failure (Unmarshal : Decoder) (fd : Reader) (w : World) (e : Error)
    (hread : fd.err = some e) :
    (LoadReader Unmarshal fd w).1 = (Project.zero, some e)
    ∧ (LoadReader Unmarshal fd w).2.calls = w.calls ++ [Call.readAll] := by
  rw [loadReader_of_read_error Unmarshal fd w e hread]
  exact ⟨rfl, rfl⟩

/-- Witness of C4: a stream that breaks after one byte. -/
theorem loadReader_read_failure_witness :
    brokenReader.err = some "unexpected EOF"
    ∧ (LoadReader failingDecoder brokenReader smallWorld).1
        = (Project.zero, some "unexpected EOF")
    ∧ (LoadReader failingDecoder brokenReader smallWorld).2.calls = [Call.readAll] :=
  ⟨rfl, loadReader_read_failure failingDecoder brokenReader smallWorld _ rfl⟩

/-- Counterexample to C5: `goreleaser.yml` opens in `smallWorld`, where no
handle is open, and when `Load` returns handle 1 is open. -/
theorem load_releases_file_counterexample :
    smallWorld.files "goreleaser.yml" = .ok goodReader
    ∧ smallWorld.handles = []
    ∧ (Load idleDecoder "goreleaser.yml" smallWorld).2.handles = [1]
    ∧ (Load idleDecoder "goreleaser.yml" smallWorld).2.handles ≠ smallWorld.handles := by
  refine ⟨rfl, rfl, rfl, ?_⟩
  decide

/-- C5, amended: `Load` does not close the file it opens. For every path that
opens, whatever the stream and the decoder do afterwards (normal completion,
read failure, parse failure), the handles open when `Load` returns are the
handles open before the call together with the new handle, which was not
among them. For every path whose open fails, the open handles are unchanged. -/
theorem load_keeps_file_open (Unmarshal : Decoder) (file : String) (w : World) :
    (∀ r, w.files file = .ok r →
      (Load Unmarshal file w).2.handles = freshHandle w.handles :: w.handles
      ∧ freshHandle w.handles ∉ w.handles)
    ∧ (∀ e, w.files file = .error e → (Load Unmarshal file w).2.handles = w.handles) := by
  constructor
  · intro r hopen
    rw [load_of_open_ok Unmarshal file w r hopen, loadReader_handles]
    exact ⟨rfl, freshHandle_not_mem w.handles⟩
  · intro e hopen
    rw [load_of_open_error Unmarshal file w e hopen]
    rfl

/-- Witness of C5, amended: the three exit paths after a successful open, and
a failed open. -/
theorem load_keeps_file_open_witness :
    (Load idleDecoder "goreleaser.yml" smallWorld).2.handles = [1]
    ∧ (Load failingDecoder "goreleaser.yml" smallWorld).2.handles = [1]
    ∧ (Load idleDecoder "broken.yml" smallWorld).2.handles = [1]
    ∧ (Load idleDecoder "missing.yml" smallWorld).2.handles = [] :=
  ⟨((load_keeps_file_open idleDecoder "goreleaser.yml" smallWorld).1 goodReader rfl).1,
    ((load_keeps_file_open failingDecoder "goreleaser.yml" smallWorld).1 goodReader rfl).1,
    ((load_keeps_file_open idleDecoder "broken.yml" smallWorld).1 brokenReader rfl).1,
    (load_keeps_file_open idleDecoder "missing.yml" smallWorld).2 _ rfl⟩

/-- C10: for every byte sequence `b`, two calls of `LoadReader` on streams
that each yield exactly `b` and end the same way, in any two worlds (so also
one call after the other), return equal Projects and equal errors; when the
streams read to completion, both return what decoding `b` into a zero-valued
Project returns. The result is a function of the input alone. -/
theorem loadReader_deterministic (Unmarshal : Decoder) (b : List UInt8) (fd1 fd2 : Reader)
    (w1 w2 : World) (h1 : fd1.data = b) (h2 : fd2.data = b) (herr : fd1.err = fd2.err) :
    (LoadReader Unmarshal fd1 w1).1 = (LoadReader Unmarshal fd2 w2).1
    ∧ (fd1.err = none → (LoadReader Unmarshal fd1 w1).1 = Unmarshal b Project.zero) := by
  cases e1 : fd1.err with
  | none =>
    have e2 : fd2.err = none := by rw [← herr, e1]
    rw [loadReader_of_read_ok Unmarshal fd1 w1 e1, loadReader_of_read_ok Unmarshal fd2 w2 e2,
      h1, h2]
    exact ⟨rfl, fun _ => rfl⟩
  | some e =>
    have e2 : fd2.err = some e := by rw [← herr, e1]
    rw [loadReader_of_read_error Unmarshal fd1 w1 e e1,
      loadReader_of_read_error Unmarshal fd2 w2 e e2]
    exact ⟨rfl, fun h => by cases h⟩

/-- Witness of C10: the same stream loaded twice, the second call in the
world the first one left. -/
theorem loadReader_deterministic_witness :
    (LoadReader failingDecoder goodReader smallWorld).1
      = (LoadReader failingDecoder goodReader
          (LoadReader failingDecoder goodReader smallWorld).2).1 :=
  (loadReader_deterministic failingDecoder goodReader.data goodReader goodReader smallWorld
    (LoadReader failingDecoder goodReader smallWorld).2 rfl rfl rfl).1

/-! ### The decode step -/

theorem lookupField_mem {S : Type} (o : Opts) (k : String) (fields : List (Field S))
    (f : Field S) (hfound : lookupField o k fields = some f) : f ∈ fields := by
  unfold lookupField at hfound
  exact List.mem_of_find?_eq_some hfound

/-- A property of the struct that every row of the table keeps is kept by
storing the entries of a mapping. -/
theorem decodeEntries_keeps {S : Type} (P : S → Prop) (o : Opts) (fields : List (Field S))
    (hrow : ∀ f ∈ fields, ∀ v s, P s → P (f.bind o v s).1) :
    ∀ (es : List (Node × Node)) (s : S), P s → P (decodeEntries o fields es s).1 := by
  intro es
  induction es with
  | nil =>
    intro s hs
    simpa [decodeEntries] using hs
  | cons entry rest ih =>
    intro s hs
    obtain ⟨k, v⟩ := entry
    cases k with
    | str name =>
      simp only [decodeEntries]
      cases hfound : lookupField o name fields with
      | none => exact ih s hs
      | some f =>
        have hkept := hrow f (lookupField_mem o name fields f hfound) v s hs
        rcases hb : f.bind o v s with ⟨s1, err⟩
        rw [hb] at hkept
        cases err with
        | none => simpa only [hb] using ih s1 hkept
        | some e => simpa only [hb] using hkept
    | null => simpa only [decodeEntries] using ih s hs
    | bool b => simpa only [decodeEntries] using ih s hs
    | seq items => simpa only [decodeEntries] using ih s hs
    | map entries => simpa only [decodeEntries] using ih s hs

theorem projectFields_keep_dist (o : Opts) :
    ∀ f ∈ projectFields, ∀ (v : Node) (s : Project),
      s.Dist = "" → (f.bind o v s).1.Dist = "" := by
  intro f hf v s hs
  simp only [projectFields, List.mem_cons, List.mem_singleton, List.not_mem_nil, or_false] at hf
  rcases hf with rfl | rfl | rfl | rfl | rfl | rfl | rfl | rfl | rfl | rfl <;> exact hs

theorem yamlUnmarshal_dist (parse : List UInt8 → Except Error (Option Node)) (o : Opts)
    (data : List UInt8) : (yamlUnmarshal parse o data Project.zero).1.Dist = "" := by
  unfold yamlUnmarshal
  cases parse data with
  | error e => rfl
  | ok doc =>
    cases doc with
    | none => rfl
    | some n =>
      cases n with
      | map es =>
        exact decodeEntries_keeps (fun p => p.Dist = "") o projectFields
          (projectFields_keep_dist o) es Project.zero rfl
      | null => rfl
      | bool b => rcases o with ⟨t, k⟩; cases t <;> rfl
      | str x => rcases o with ⟨t, k⟩; cases t <;> rfl
      | seq items => rcases o with ⟨t, k⟩; cases t <;> rfl

theorem loadReader_dist (Unmarshal : Decoder)
    (hdec : ∀ data, (Unmarshal data Project.zero).1.Dist = "") (fd : Reader) (w : World) :
    (LoadReader Unmarshal fd w).1.1.Dist = "" := by
  cases hread : fd.err with
  | none =>
    rw [loadReader_of_read_ok Unmarshal fd w hread]
    exact hdec fd.data
  | some e =>
    rw [loadReader_of_read_error Unmarshal fd w e hread]
    rfl

theorem load_dist (Unmarshal : Decoder)
    (hdec : ∀ data, (Unmarshal data Project.zero).1.Dist = "") (file : String) (w : World) :
    (Load Unmarshal file w).1.1.Dist = "" := by
  cases hopen : w.files file with
  | error e =>
    rw [load_of_open_error Unmarshal file w e hopen]
    rfl
  | ok r =>
    rw [load_of_open_ok Unmarshal file w r hopen]
    exact loadReader_dist Unmarshal hdec r _

/-- C6: for every path given to `Load` and every stream given to `LoadReader`,
whatever the files, the bytes, the YAML syntax and the two open choices of the
decode step, the `Dist` field of the returned Project is the empty string. In
particular a document whose top-level keys are `dist` and `Dist` decodes to
the zero-valued Project without error. -/
theorem dist_never_loaded (parse : List UInt8 → Except Error (Option Node)) (o : Opts) :
    (∀ (file : String) (w : World), (Load (yamlUnmarshal parse o) file w).1.1.Dist = "")
    ∧ (∀ (fd : Reader) (w : World), (LoadReader (yamlUnmarshal parse o) fd w).1.1.Dist = "")
    ∧ (LoadReader (yamlUnmarshal (constParse distDoc) o) goodReader smallWorld).1
        = (Project.zero, none) := by
  refine ⟨?_, ?_, ?_⟩
  · exact load_dist _ (yamlUnmarshal_dist parse o)
  · exact loadReader_dist _ (yamlUnmarshal_dist parse o)
  · rcases o with ⟨t, k⟩
    cases t <;> cases k <;> rfl

/-- C7: loading the empty byte stream with `LoadReader`, where the empty
stream holds no document, returns a nil error and the zero-valued Project. -/
theorem loadReader_empty_stream (parse : List UInt8 → Except Error (Option Node)) (o : Opts)
    (fd : Reader) (w : World) (hdata : fd.data = []) (hread : fd.err = none)
    (hparse : parse [] = .ok none) :
    (LoadReader (yamlUnmarshal parse o) fd w).1 = (Project.zero, none) := by
  rw [loadReader_of_read_ok _ fd w hread, hdata]
  unfold yamlUnmarshal
  rw [hparse]

/-- Witness of C7: the empty stream in `smallWorld`. -/
theorem loadReader_empty_stream_witness :
    (LoadReader (yamlUnmarshal emptyParse { types := .strict, keys := .folded })
      { data := [], err := none } smallWorld).1 = (Project.zero, none) :=
  loadReader_empty_stream emptyParse _ _ smallWorld rfl rfl rfl

/-- C8: loading with `LoadReader` a stream that delivers the document
`release: {github: {owner: acme, name: tool}, draft: true}`, where the YAML
syntax reads these bytes as the tree `releaseDoc`, returns a nil error and a
Project `p` with `p.Release.GitHub.String() = "acme/tool"`,
`p.Release.Draft = true`, and every other section (Brew, Build, Archive,
Source, FPM, Snapshot, Hooks, Checksum, Cleanup) and `Dist` zero-valued. -/
theorem loadReader_release_document (parse : List UInt8 → Except Error (Option Node))
    (o : Opts) (fd : Reader) (w : World) (hdata : fd.data = releaseBytes)
    (hread : fd.err = none) (hparse : parse releaseBytes = .ok (some releaseDoc)) :
    (LoadReader (yamlUnmarshal parse o) fd w).1.2 = none
    ∧ (LoadReader (yamlUnmarshal parse o) fd w).1.1.Release.GitHub.String = "acme/tool"
    ∧ (LoadReader (yamlUnmarshal parse o) fd w).1.1.Release.Draft = true
    ∧ (LoadReader (yamlUnmarshal parse o) fd w).1.1
        = { Release := { GitHub := { Owner := "acme", Name := "tool" }, Draft := true },
            Brew := {}, Build := {}, Archive := {}, Source := {}, FPM := {}, Snapshot := {},
            Hooks := {}, Checksum := {}, Cleanup := {}, Dist := "" } := by
  have hres : (LoadReader (yamlUnmarshal parse o) fd w).1
      = ({ Release := { GitHub := { Owner := "acme", Name := "tool" }, Draft := true } },
          none) := by
    rw [loadReader_of_read_ok _ fd w hread, hdata]
    unfold yamlUnmarshal
    rw [hparse]
    rcases o with ⟨t, k⟩
    cases t <;> cases k <;> rfl
  rw [hres]
  exact ⟨rfl, by decide, rfl, rfl⟩

/-- Witness of C8: the stream of the release document, read by a parser that
yields its tree. -/
theorem loadReader_release_document_witness :
    (LoadReader (yamlUnmarshal (constParse releaseDoc) { types := .strict, keys := .exact })
        releaseReader smallWorld).1.2 = none
    ∧ (LoadReader (yamlUnmarshal (constParse releaseDoc) { types := .strict, keys := .exact })
        releaseReader smallWorld).1.1.Release.GitHub.String = "acme/tool" :=
  ⟨(loadReader_release_document (constParse releaseDoc) _ releaseReader smallWorld
      rfl rfl rfl).1,
    (loadReader_release_document (constParse releaseDoc) _ releaseReader smallWorld
      rfl rfl rfl).2.1⟩

/-! ### A scalar under a list-typed key

What `goos: linux` under `build` gives depends on `TypePolicy`, the choice the
sources do not settle. -/

theorem goos_scalar_strict (k : KeyPolicy) :
    (LoadReader (yamlUnmarshal (constParse goosScalarDoc) { types := .strict, keys := k })
      goodReader smallWorld).1 = (Project.zero, some typeError) := by
  cases k <;> rfl

theorem goos_scalar_lenient (k : KeyPolicy) :
    (LoadReader (yamlUnmarshal (constParse goosScalarDoc) { types := .lenient, keys := k })
      goodReader smallWorld).1 = (Project.zero, none) := by
  cases k <;> rfl

end Config
